import Mathlib

/-!
Shallow embedding of the weather-arbitrage bot (`src/weather.py`) for
verification of the frozen claims.

Modelling conventions:
* Python floats are modelled as exact rationals (`ℚ`); the float literal
  `0.01` is read at its intended value `1/100`.
* Python `int(x)` (truncation toward zero) is `pyInt`; Python `round`
  (banker's rounding, ties to even) is `pyRound`.
* The regex character class `\d` is modelled as an ASCII digit, which is
  what every market title in scope contains.
* Python dictionaries coming from the network are modelled as records with
  `Option` fields where the code probes for key presence.
* Calls to the external collaborators (weather fetch, market listing,
  order submission) are modelled by an explicit environment `ScanEnv`;
  order submissions are additionally written to a log so that theorems can
  speak about what was sent to the order client.
-/

/-- Value of a (non-empty) digit string, as computed by Python `int`. -/
def toNatDigits (l : List Char) : ℕ :=
  l.foldl (fun acc c => 10 * acc + (c.toNat - '0'.toNat)) 0

/-- Match of the regex `(\d+)-(\d+)°` anchored at the head of `l`.
Greedy `\d+` with backtracking degenerates to "maximal digit run followed
by the literal": a shorter run would have to be followed by `-` (resp. `°`)
at a position that still holds a digit. -/
def matchRangeAt (l : List Char) : Option (ℕ × ℕ) :=
  let d1 := l.takeWhile Char.isDigit
  match d1, l.drop d1.length with
  | [], _ => none
  | _, '-' :: l2 =>
    let d2 := l2.takeWhile Char.isDigit
    match d2, l2.drop d2.length with
    | [], _ => none
    | _, '°' :: _ => some (toNatDigits d1, toNatDigits d2)
    | _, _ => none
  | _, _ => none

/-- Match of the regex `>(\d+)°` anchored at the head of `l`. -/
def matchGtAt (l : List Char) : Option ℕ :=
  match l with
  | '>' :: l1 =>
    let d := l1.takeWhile Char.isDigit
    match d, l1.drop d.length with
    | [], _ => none
    | _, '°' :: _ => some (toNatDigits d)
    | _, _ => none
  | _ => none

/-- Match of the regex `<(\d+)°` anchored at the head of `l`. -/
def matchLtAt (l : List Char) : Option ℕ :=
  match l with
  | '<' :: l1 =>
    let d := l1.takeWhile Char.isDigit
    match d, l1.drop d.length with
    | [], _ => none
    | _, '°' :: _ => some (toNatDigits d)
    | _, _ => none
  | _ => none

/-- `re.search` for the range pattern: leftmost position wins. -/
def searchRange : List Char → Option (ℕ × ℕ)
  | [] => none
  | c :: t =>
    match matchRangeAt (c :: t) with
    | some r => some r
    | none => searchRange t

/-- `re.search` for the greater-than pattern. -/
def searchGt : List Char → Option ℕ
  | [] => none
  | c :: t =>
    match matchGtAt (c :: t) with
    | some r => some r
    | none => searchGt t

/-- `re.search` for the less-than pattern. -/
def searchLt : List Char → Option ℕ
  | [] => none
  | c :: t =>
    match matchLtAt (c :: t) with
    | some r => some r
    | none => searchLt t

/-- `extract_temp_from_title` from `src/weather.py`: try the range pattern
`(\d+)-(\d+)°`, then `>(\d+)°` (upper bound 999), then `<(\d+)°`
(lower bound 0), else `None`. -/
def extract_temp_from_title (title : String) : Option (ℕ × ℕ) :=
  match searchRange title.toList with
  | some (a, b) => some (a, b)
  | none =>
    match searchGt title.toList with
    | some a => some (a, 999)
    | none =>
      match searchLt title.toList with
      | some a => some (0, a)
      | none => none

/-- `POLL_INTERVAL_SECONDS` (normal polling, 5 minutes). -/
def POLL_INTERVAL_SECONDS : ℕ := 5 * 60

/-- `BURST_POLL_SECONDS` (burst polling, 1 minute). -/
def BURST_POLL_SECONDS : ℕ := 60

/-- `SAFETY_MARGIN` (float `0.01` read at its intended value). -/
def SAFETY_MARGIN : ℚ := 1/100

/-- `is_critical_window` from `src/weather.py`: burst-window predicate on
the minute of the local wall clock, `minute >= 50 or minute == 0`. -/
def is_critical_window (minute : ℕ) : Bool :=
  decide (minute ≥ 50 ∨ minute = 0)

/-- `get_next_poll_interval` from `src/weather.py`, as a function of the
Eastern-time hour and minute: `None` after the 22:30 close cutoff, burst
interval when `minute >= 53 or minute <= 3`, normal interval otherwise. -/
def get_next_poll_interval (hour minute : ℕ) : Option ℕ :=
  if hour > 22 ∨ (hour = 22 ∧ minute ≥ 30) then none
  else if minute ≥ 53 ∨ minute ≤ 3 then some BURST_POLL_SECONDS
  else some POLL_INTERVAL_SECONDS

/-- Python `int()` applied to an exact rational: truncation toward zero. -/
def pyInt (q : ℚ) : ℤ :=
  if 0 ≤ q then ⌊q⌋ else -⌊-q⌋

/-- Python `round()` applied to an exact rational: nearest integer, ties to
the even neighbour. -/
def pyRound (q : ℚ) : ℤ :=
  let f := ⌊q⌋
  if q - f < 1/2 then f
  else if 1/2 < q - f then f + 1
  else if f % 2 = 0 then f else f + 1

/-- Observation record returned by `get_current_high_temp` (the fields the
core logic reads). -/
structure WeatherData where
  current_temp : ℚ
  max_temp_today : ℚ
deriving DecidableEq, Repr

/-- Raw market record as read by the core: title, ticker and the optional
price keys probed by `market.get`. -/
structure Market where
  title : String
  ticker : String
  last_price : Option ℤ
  yes_price : Option ℤ
deriving DecidableEq, Repr

/-- `market.get('last_price', market.get('yes_price', 0))`. -/
def marketYesPrice (m : Market) : ℤ :=
  m.last_price.getD (m.yes_price.getD 0)

/-- Opportunity dictionary built by `find_arbitrage_opportunities`
(numeric content of the formatted fields). -/
structure Opportunity where
  city : String
  ticker : String
  title : String
  temp_low : ℕ
  temp_high : ℕ
  current_high : ℚ
  yes_price : ℤ
  no_price : ℤ
  profit_per_share : ℤ
  roi : ℤ
deriving DecidableEq, Repr

/-- Per-market body of the loop in `find_arbitrage_opportunities`: parse
the title; look up the yes price (default 0); flag an opportunity exactly
when `current_high >= high_temp + margin` and `no_price < 95`. -/
def evalMarket (margin : ℚ) (city : String) (current_high : ℚ) (m : Market) :
    Option Opportunity :=
  match extract_temp_from_title m.title with
  | none => none
  | some (low_temp, high_temp) =>
    let yes := marketYesPrice m
    let no := 100 - yes
    if (high_temp : ℚ) + margin ≤ current_high then
      if no < 95 then
        let profit := 100 - no
        some
          { city := city
            ticker := m.ticker
            title := m.title
            temp_low := low_temp
            temp_high := high_temp
            current_high := current_high
            yes_price := yes
            no_price := no
            profit_per_share := profit
            roi := if 0 < no then pyRound ((profit : ℚ) / (no : ℚ) * 100) else 0 }
      else none
    else none

/-- `find_arbitrage_opportunities` from `src/weather.py`: empty on missing
weather data or an empty market list, otherwise the per-market evaluation
over the list, using the global `SAFETY_MARGIN`. -/
def find_arbitrage_opportunities (city : String) (weather : Option WeatherData)
    (markets : List Market) : List Opportunity :=
  match weather with
  | none => []
  | some w =>
    if markets = [] then []
    else markets.filterMap (evalMarket SAFETY_MARGIN city w.max_temp_today)

/-- City configuration record (the fields `scan_once` reads). -/
structure CityData where
  kalshi_series : String
  nws_station : String
  station_name : String
deriving DecidableEq, Repr

/-- The `CITIES` table (trial-run configuration: Boston and New York, in
dictionary insertion order). -/
def CITIES : List (String × CityData) :=
  [("Boston", ⟨"KXHIGHTBOS", "KBOS", "Boston Logan Airport"⟩),
   ("New York", ⟨"KXHIGHNY", "KNYC", "NYC Central Park"⟩)]

/-- One call to `execute_trade`: the arguments handed to the order client. -/
structure Order where
  ticker : String
  side : String
  price : ℤ
  quantity : ℤ
deriving DecidableEq, Repr

/-- Environment determinizing the external collaborators during one scan:
weather by station, market listings by series, and the outcome of each
order submission (`true` = the API returned a result, `false` = `None`). -/
structure ScanEnv where
  weather : String → Option WeatherData
  markets : String → List Market
  orderOk : Order → Bool

/-- Mutable state threaded through `scan_once`: the `traded_today` set, the
`scan_results` counters, and a log of every order submitted to the order
client. -/
structure ScanState where
  traded : Finset String
  opportunities_found : ℕ
  trades_executed : ℕ
  cities_scanned : ℕ
  high_temps : List (String × ℚ)
  cities_with_data : List String
  max_trades_hit : Bool
  log : List Order
deriving DecidableEq

/-- The initial `scan_results` dictionary of `scan_once`, with a given
incoming `traded_today` set. -/
def initState (traded0 : Finset String) : ScanState :=
  ⟨traded0, 0, 0, 0, [], [], false, []⟩

/-- `max_total_trades and len(traded_today) >= max_total_trades`: Python
truthiness makes `None` and `0` skip the check entirely. -/
def budgetHit (mtt : Option ℤ) (traded : Finset String) : Bool :=
  match mtt with
  | none => false
  | some n => decide (n ≠ 0) && decide (n ≤ (traded.card : ℤ))

/-- The order `scan_once` hands to `execute_trade` for an opportunity:
buy "no" at `no_price` cents, `quantity = int(max_trade_amount /
(no_price / 100))`. -/
def submitOrder (opp : Opportunity) (maxAmt : ℚ) : Order :=
  ⟨opp.ticker, "no", opp.no_price, pyInt (maxAmt / ((opp.no_price : ℚ) / 100))⟩

/-- Counter updates of `scan_once` once a city's weather fetch succeeded:
`cities_scanned`, `cities_with_data`, `high_temps`. -/
def noteCity (st : ScanState) (city_name : String) (w : WeatherData) : ScanState :=
  { st with
    cities_scanned := st.cities_scanned + 1
    cities_with_data := st.cities_with_data ++ [city_name]
    high_temps := st.high_temps ++ [(city_name, w.max_temp_today)] }

/-- Counter update of `scan_once` after evaluating a city's markets:
`opportunities_found += len(opportunities)`. -/
def noteOpps (st : ScanState) (k : ℕ) : ScanState :=
  { st with opportunities_found := st.opportunities_found + k }

/-- Inner loop of `scan_once` over the opportunities of one city: budget
check (break), duplicate check (continue), then quantity computation and
order submission.  `none` models the uncaught `ZeroDivisionError` raised
when `no_price` is `0`. -/
def tradeLoop (env : ScanEnv) (maxAmt : ℚ) (mtt : Option ℤ) :
    List Opportunity → ScanState → Option ScanState
  | [], st => some st
  | opp :: rest, st =>
    if budgetHit mtt st.traded then some { st with max_trades_hit := true }
    else if opp.ticker ∈ st.traded then tradeLoop env maxAmt mtt rest st
    else if (opp.no_price : ℚ) / 100 = 0 then none
    else if env.orderOk (submitOrder opp maxAmt) then
      tradeLoop env maxAmt mtt rest
        { st with
          traded := insert opp.ticker st.traded
          trades_executed := st.trades_executed + 1
          log := st.log ++ [submitOrder opp maxAmt] }
    else tradeLoop env maxAmt mtt rest { st with log := st.log ++ [submitOrder opp maxAmt] }

/-- Outer loop of `scan_once` over the configured cities: budget check
(break), weather fetch (skip city on failure), market fetch (skip on
empty), opportunity counting, and the trade loop when auto-execution is
on. -/
def cityLoop (env : ScanEnv) (auto : Bool) (maxAmt : ℚ) (mtt : Option ℤ) :
    List (String × CityData) → ScanState → Option ScanState
  | [], st => some st
  | (city_name, cd) :: rest, st =>
    if budgetHit mtt st.traded then some { st with max_trades_hit := true }
    else
      match env.weather cd.nws_station with
      | none => cityLoop env auto maxAmt mtt rest st
      | some w =>
        if env.markets cd.kalshi_series = [] then
          cityLoop env auto maxAmt mtt rest (noteCity st city_name w)
        else if auto &&
            !(find_arbitrage_opportunities city_name (some w)
                (env.markets cd.kalshi_series)).isEmpty then
          match tradeLoop env maxAmt mtt
              (find_arbitrage_opportunities city_name (some w) (env.markets cd.kalshi_series))
              (noteOpps (noteCity st city_name w)
                (find_arbitrage_opportunities city_name (some w)
                  (env.markets cd.kalshi_series)).length) with
          | none => none
          | some st3 => cityLoop env auto maxAmt mtt rest st3
        else
          cityLoop env auto maxAmt mtt rest
            (noteOpps (noteCity st city_name w)
              (find_arbitrage_opportunities city_name (some w)
                (env.markets cd.kalshi_series)).length)

/-- `scan_once` from `src/weather.py`, over an explicit environment.
Returns the final counters, updated `traded_today` set and order log, or
`none` when the scan raises. -/
def scan_once (env : ScanEnv) (auto : Bool) (maxAmt : ℚ) (traded0 : Finset String)
    (mtt : Option ℤ) : Option ScanState :=
  cityLoop env auto maxAmt mtt CITIES (initState traded0)

/-- Tickers of the orders in `Δ` whose submission succeeded. -/
def succTickers (env : ScanEnv) (Δ : List Order) : List String :=
  (Δ.filter env.orderOk).map Order.ticker

/-- Book-keeping relation between two scan states: the second extends the
first by some batch `Δ` of submitted orders, its traded set grew by
exactly the tickers of the successful submissions in `Δ`, and the trade
counter by their number. -/
def Tracks (env : ScanEnv) (st st' : ScanState) : Prop :=
  ∃ Δ : List Order,
    st'.log = st.log ++ Δ ∧
    st'.traded = st.traded ∪ (succTickers env Δ).toFinset ∧
    st'.trades_executed = st.trades_executed + (Δ.filter env.orderOk).length

/-- Concrete market fixture: a Boston range market priced at 10 cents. -/
def mkB : Market :=
  ⟨"Will the maximum temperature be 58-59° on Feb 12, 2026?",
   "KXHIGHTBOS-26FEB12-B58.5", some 10, none⟩

/-- Concrete market fixture with both price keys absent. -/
def mkMissing : Market :=
  ⟨"Will the maximum temperature be 58-59° on Feb 12, 2026?", "T1", none, none⟩

/-- Concrete market fixture with an unparsable title. -/
def mkBad : Market := ⟨"hello", "T2", some 10, none⟩

/-- Concrete observation fixture: Boston high of 60 °F. -/
def wB : WeatherData := ⟨60, 60⟩

/-- Concrete environment: weather only at KBOS, one market in the Boston
series, every order submission succeeds. -/
def envB : ScanEnv :=
  ⟨fun s => if s = "KBOS" then some wB else none,
   fun s => if s = "KXHIGHTBOS" then [mkB] else [],
   fun _ => true⟩

/-- Same environment but every order submission fails. -/
def envBFail : ScanEnv :=
  ⟨fun s => if s = "KBOS" then some wB else none,
   fun s => if s = "KXHIGHTBOS" then [mkB] else [],
   fun _ => false⟩

/-- The opportunity `find_arbitrage_opportunities` builds from `mkB` at an
observed high of 60 °F: no price 90, profit 10, roi `round(100/9) = 11`. -/
def oppB : Opportunity :=
  ⟨"Boston", "KXHIGHTBOS-26FEB12-B58.5",
   "Will the maximum temperature be 58-59° on Feb 12, 2026?",
   58, 59, 60, 10, 90, 10, 11⟩

/-- Expected state of a scan over `envBFail` (order rejected) with $10 per
trade: quantity `int(10 / 0.9) = 11`, order logged, nothing traded. -/
def stFail : ScanState :=
  ⟨∅, 1, 0, 1, [("Boston", 60)], ["Boston"], false,
   [⟨"KXHIGHTBOS-26FEB12-B58.5", "no", 90, 11⟩]⟩

/-- Expected state of a scan over `envB` with $5 per trade and an incoming
traded set `{"X"}`: quantity `int(5 / 0.9) = 5`, order filled. -/
def stRun5 : ScanState :=
  ⟨insert "KXHIGHTBOS-26FEB12-B58.5" {"X"}, 1, 1, 1, [("Boston", 60)], ["Boston"],
   false, [⟨"KXHIGHTBOS-26FEB12-B58.5", "no", 90, 5⟩]⟩

/-- Expected state of the trade loop over `envB` with $0 per trade:
quantity `int(0 / 0.9) = 0`, yet the zero-quantity order is submitted and
filled. -/
def stAmt0 : ScanState :=
  ⟨{"KXHIGHTBOS-26FEB12-B58.5"}, 0, 1, 0, [], [], false,
   [⟨"KXHIGHTBOS-26FEB12-B58.5", "no", 90, 0⟩]⟩

/-! ## Claim theorems -/

/-- C5: the threshold parser tries the recognized forms in priority order
with first match winning: a title containing `A-B°` (leftmost match) yields
`(A, B)`; otherwise a title containing `>A°` yields `(A, 999)`; otherwise a
title containing `<A°` yields `(0, A)`; a title matching none of the three
patterns yields `none` (the contract is silently skipped). -/
theorem c5_parser_priority (s : String) :
    (∀ a b, searchRange s.toList = some (a, b) →
      extract_temp_from_title s = some (a, b)) ∧
    (∀ a, searchRange s.toList = none → searchGt s.toList = some a →
      extract_temp_from_title s = some (a, 999)) ∧
    (∀ a, searchRange s.toList = none → searchGt s.toList = none →
      searchLt s.toList = some a → extract_temp_from_title s = some (0, a)) ∧
    (searchRange s.toList = none → searchGt s.toList = none →
      searchLt s.toList = none → extract_temp_from_title s = none) := by
  have hfun : String.toList = String.data := rfl
  refine ⟨?_, ?_, ?_, ?_⟩ <;> intros <;>
    simp_all [extract_temp_from_title, hfun]

/-- Witness for C5 at the four kinds of concrete titles. -/
theorem c5_parser_priority_witness :
    extract_temp_from_title "Will the maximum temperature be 36-37° on Feb 12, 2026?" = some (36, 37) ∧
    extract_temp_from_title "Will the maximum temperature be >39° on Feb 12, 2026?" = some (39, 999) ∧
    extract_temp_from_title "Will the maximum temperature be <32° on Feb 12, 2026?" = some (0, 32) ∧
    extract_temp_from_title "no pattern here" = none :=
  ⟨(c5_parser_priority _).1 36 37 (by decide),
   (c5_parser_priority _).2.1 39 (by decide) (by decide),
   (c5_parser_priority _).2.2.1 32 (by decide) (by decide) (by decide),
   (c5_parser_priority _).2.2.2 (by decide) (by decide) (by decide)⟩

/-- C6 counterexample: at minute 50 (hour 10, before the cutoff) the
burst-window predicate `is_critical_window` is true, yet
`get_next_poll_interval` returns the normal interval, not the burst
interval — the two functions use different wrap-around rules. -/
theorem c6_window_counterexample :
    is_critical_window 50 = true ∧
    get_next_poll_interval 10 50 = some POLL_INTERVAL_SECONDS ∧
    get_next_poll_interval 10 50 ≠ some BURST_POLL_SECONDS ∧
    get_next_poll_interval 10 50 ≠ none := by
  refine ⟨by decide, by decide, by decide, by decide⟩

/-- C6 amended: before the close cutoff, `get_next_poll_interval` returns
the burst interval exactly when `minute ≥ 53 ∨ minute ≤ 3` and the normal
interval otherwise, while `is_critical_window` is true exactly when
`minute ≥ 50 ∨ minute = 0`; the two rules disagree (at minutes 1–3 and
50–52), so the burst decision does not coincide with the window
predicate. -/
theorem c6_burst_rule (hour minute : ℕ)
    (hcut : hour < 22 ∨ (hour = 22 ∧ minute < 30)) :
    (get_next_poll_interval hour minute = some BURST_POLL_SECONDS ↔
      (minute ≥ 53 ∨ minute ≤ 3)) ∧
    (get_next_poll_interval hour minute = some POLL_INTERVAL_SECONDS ↔
      ¬(minute ≥ 53 ∨ minute ≤ 3)) ∧
    (is_critical_window minute = true ↔ (minute ≥ 50 ∨ minute = 0)) := by
  have hc : ¬(hour > 22 ∨ (hour = 22 ∧ minute ≥ 30)) := by omega
  rw [get_next_poll_interval, if_neg hc]
  by_cases hb : minute ≥ 53 ∨ minute ≤ 3 <;>
    simp [hb, is_critical_window, POLL_INTERVAL_SECONDS, BURST_POLL_SECONDS]

/-- Witness for C6 amended at hour 10, minute 55. -/
theorem c6_burst_rule_witness :
    (get_next_poll_interval 10 55 = some BURST_POLL_SECONDS ↔ (55 ≥ 53 ∨ 55 ≤ 3)) ∧
    (get_next_poll_interval 10 55 = some POLL_INTERVAL_SECONDS ↔ ¬(55 ≥ 53 ∨ 55 ≤ 3)) ∧
    (is_critical_window 55 = true ↔ (55 ≥ 50 ∨ 55 = 0)) :=
  c6_burst_rule 10 55 (Or.inl (by norm_num))

/-- C7: the stop decision of `get_next_poll_interval` is monotone in the
clock within a day — if it returns the stop sentinel at `(h1, m1)` it also
returns it at every later `(h2, m2)` of the same day. -/
theorem c7_monotonic_stop (h1 m1 h2 m2 : ℕ)
    (horder : h1 < h2 ∨ (h1 = h2 ∧ m1 ≤ m2))
    (hstop : get_next_poll_interval h1 m1 = none) :
    get_next_poll_interval h2 m2 = none := by
  rw [get_next_poll_interval] at hstop ⊢
  by_cases hc1 : h1 > 22 ∨ (h1 = 22 ∧ m1 ≥ 30)
  · have hc2 : h2 > 22 ∨ (h2 = 22 ∧ m2 ≥ 30) := by omega
    rw [if_pos hc2]
  · rw [if_neg hc1] at hstop
    split_ifs at hstop

/-- Witness for C7: stopped at 22:30, still stopped at 23:59. -/
theorem c7_monotonic_stop_witness : get_next_poll_interval 23 59 = none :=
  c7_monotonic_stop 22 30 23 59 (Or.inl (by norm_num)) (by decide)

/-- C1: for a market whose title parses to `(low, high)`, the per-market
certainty evaluation produces an opportunity iff
`current_high ≥ high + margin` and `no_price = 100 - yes_price < 95`; any
produced opportunity has `profit_per_share = 100 - no_price` exactly and
`roi = round(profit / no_price * 100)` when `no_price > 0`, else `0`; and
`find_arbitrage_opportunities` returns exactly the per-market evaluations
over the given market list (at the configured `SAFETY_MARGIN`). -/
theorem c1_certainty_rule (margin : ℚ) (city : String) (H : ℚ) (mk : Market)
    (low high : ℕ) (hparse : extract_temp_from_title mk.title = some (low, high)) :
    ((evalMarket margin city H mk).isSome ↔
      ((high : ℚ) + margin ≤ H ∧ 100 - marketYesPrice mk < 95)) ∧
    (∀ opp, evalMarket margin city H mk = some opp →
      opp.yes_price = marketYesPrice mk ∧
      opp.no_price = 100 - marketYesPrice mk ∧
      opp.profit_per_share = 100 - opp.no_price ∧
      opp.roi = if 0 < opp.no_price
        then pyRound (((100 - opp.no_price : ℤ) : ℚ) / ((opp.no_price : ℤ) : ℚ) * 100)
        else 0) ∧
    (∀ (w : WeatherData) (mks : List Market) (opp : Opportunity),
      opp ∈ find_arbitrage_opportunities city (some w) mks ↔
        ∃ mk' ∈ mks, evalMarket SAFETY_MARGIN city w.max_temp_today mk' = some opp) := by
  refine ⟨?_, ?_, ?_⟩
  · simp only [evalMarket, hparse]
    split_ifs with h1 h2 <;> simp_all
  · intro opp h
    simp only [evalMarket, hparse] at h
    split_ifs at h with h1 h2 h3
    · obtain rfl := Option.some.inj h
      exact ⟨rfl, rfl, rfl, by simp [h3]⟩
    · obtain rfl := Option.some.inj h
      exact ⟨rfl, rfl, rfl, by simp [h3]⟩
  · intro w mks opp
    by_cases hm : mks = []
    · subst hm
      simp [find_arbitrage_opportunities]
    · simp [find_arbitrage_opportunities, hm, List.mem_filterMap]

/-- Witness for C1 at the concrete Boston fixture: high 60, interval
(58, 59), yes price 10. -/
theorem c1_certainty_rule_witness :
    ((evalMarket SAFETY_MARGIN "Boston" 60 mkB).isSome ↔
      ((59 : ℚ) + SAFETY_MARGIN ≤ 60 ∧ 100 - marketYesPrice mkB < 95)) :=
  (c1_certainty_rule SAFETY_MARGIN "Boston" 60 mkB 58 59 (by decide)).1

/-- C8: a market whose price keys are both absent (yes price defaults to
0, so `no_price = 100 ≥ 95`), or whose title parses to no interval, never
yields an opportunity, for any margin and observed high; a market list of
such records makes `find_arbitrage_opportunities` return nothing. -/
theorem c8_missing_data_skips (margin : ℚ) (city : String) (H ct : ℚ) (mk : Market)
    (hcase : (mk.last_price = none ∧ mk.yes_price = none) ∨
      extract_temp_from_title mk.title = none) :
    evalMarket margin city H mk = none ∧
    find_arbitrage_opportunities city (some ⟨ct, H⟩) [mk] = [] := by
  have hnone : ∀ marg : ℚ, evalMarket marg city H mk = none := by
    intro marg
    rcases hcase with ⟨hl, hy⟩ | hx
    · have hyes : marketYesPrice mk = 0 := by simp [marketYesPrice, hl, hy]
      rcases hx : extract_temp_from_title mk.title with _ | ⟨lo, hi⟩
      · simp [evalMarket, hx]
      · simp only [evalMarket, hx, hyes]
        split_ifs with h1 h2
        · omega
        · rfl
        · rfl
    · simp [evalMarket, hx]
  refine ⟨hnone margin, ?_⟩
  simp [find_arbitrage_opportunities, hnone]

/-- Witness for C8: both degradation cases at concrete fixtures. -/
theorem c8_missing_data_skips_witness :
    evalMarket SAFETY_MARGIN "Boston" 60 mkMissing = none ∧
    find_arbitrage_opportunities "Boston" (some ⟨60, 60⟩) [mkBad] = [] :=
  ⟨(c8_missing_data_skips SAFETY_MARGIN "Boston" 60 60 mkMissing
      (Or.inl ⟨rfl, rfl⟩)).1,
   (c8_missing_data_skips SAFETY_MARGIN "Boston" 60 60 mkBad
      (Or.inr (by decide))).2⟩

lemma tracks_refl (env : ScanEnv) (st : ScanState) : Tracks env st st :=
  ⟨[], by simp [succTickers]⟩

lemma tracks_of_fields {env : ScanEnv} {st st' : ScanState}
    (h1 : st'.log = st.log) (h2 : st'.traded = st.traded)
    (h3 : st'.trades_executed = st.trades_executed) : Tracks env st st' :=
  ⟨[], by simp [h1, h2, h3, succTickers]⟩

lemma tracks_trans {env : ScanEnv} {s t u : ScanState}
    (hst : Tracks env s t) (htu : Tracks env t u) : Tracks env s u := by
  obtain ⟨d1, ha1, ha2, ha3⟩ := hst
  obtain ⟨d2, hb1, hb2, hb3⟩ := htu
  refine ⟨d1 ++ d2, ?_, ?_, ?_⟩
  · rw [hb1, ha1, List.append_assoc]
  · rw [hb2, ha2]
    simp [succTickers, List.filter_append, Finset.union_assoc]
  · rw [hb3, ha3]
    simp [List.filter_append]
    ring

lemma tracks_submit_ok {env : ScanEnv} {st : ScanState} {ord : Order}
    (hok : env.orderOk ord = true) :
    Tracks env st
      { st with
        traded := insert ord.ticker st.traded
        trades_executed := st.trades_executed + 1
        log := st.log ++ [ord] } := by
  refine ⟨[ord], rfl, ?_, by simp [hok]⟩
  simp [succTickers, hok, Finset.union_comm, Finset.insert_eq]

lemma tracks_submit_fail {env : ScanEnv} {st : ScanState} {ord : Order}
    (hfail : env.orderOk ord = false) :
    Tracks env st { st with log := st.log ++ [ord] } := by
  refine ⟨[ord], rfl, ?_, by simp [hfail]⟩
  simp [succTickers, hfail]

lemma tradeLoop_tracks (env : ScanEnv) (maxAmt : ℚ) (mtt : Option ℤ) :
    ∀ (opps : List Opportunity) (st st' : ScanState),
      tradeLoop env maxAmt mtt opps st = some st' → Tracks env st st' := by
  intro opps
  induction opps with
  | nil =>
    intro st st' h
    rw [tradeLoop] at h
    obtain rfl := Option.some.inj h
    exact tracks_refl env st
  | cons opp rest ih =>
    intro st st' h
    rw [tradeLoop] at h
    split_ifs at h with hb hm hp hok
    · obtain rfl := Option.some.inj h
      exact tracks_of_fields rfl rfl rfl
    · exact ih st st' h
    · exact tracks_trans (tracks_submit_ok hok) (ih _ st' h)
    · exact tracks_trans (tracks_submit_fail (by simpa using hok)) (ih _ st' h)

lemma cityLoop_tracks (env : ScanEnv) (auto : Bool) (maxAmt : ℚ) (mtt : Option ℤ) :
    ∀ (cities : List (String × CityData)) (st st' : ScanState),
      cityLoop env auto maxAmt mtt cities st = some st' → Tracks env st st' := by
  intro cities
  induction cities with
  | nil =>
    intro st st' h
    rw [cityLoop] at h
    obtain rfl := Option.some.inj h
    exact tracks_refl env st
  | cons c rest ih =>
    intro st st' h
    rw [cityLoop] at h
    by_cases hb : budgetHit mtt st.traded = true
    · rw [if_pos hb] at h
      obtain rfl := Option.some.inj h
      exact tracks_of_fields rfl rfl rfl
    · rw [if_neg hb] at h
      rcases hw : env.weather c.2.nws_station with _ | w
      · rw [hw] at h
        exact ih st st' h
      · simp only [hw] at h
        have hmid1 : Tracks env st (noteCity st c.1 w) := tracks_of_fields rfl rfl rfl
        have hmid2 : Tracks env st
            (noteOpps (noteCity st c.1 w)
              (find_arbitrage_opportunities c.1 (some w)
                (env.markets c.2.kalshi_series)).length) :=
          tracks_of_fields rfl rfl rfl
        by_cases hmk : env.markets c.2.kalshi_series = []
        · rw [if_pos hmk] at h
          exact tracks_trans hmid1 (ih _ st' h)
        · rw [if_neg hmk] at h
          by_cases hauto : (auto &&
              !(find_arbitrage_opportunities c.1 (some w)
                  (env.markets c.2.kalshi_series)).isEmpty) = true
          · rw [if_pos hauto] at h
            rcases htl : tradeLoop env maxAmt mtt
                (find_arbitrage_opportunities c.1 (some w) (env.markets c.2.kalshi_series))
                (noteOpps (noteCity st c.1 w)
                  (find_arbitrage_opportunities c.1 (some w)
                    (env.markets c.2.kalshi_series)).length)
              with _ | st3
            · rw [htl] at h
              exact Option.noConfusion h
            · rw [htl] at h
              exact tracks_trans
                (tracks_trans hmid2 (tradeLoop_tracks env maxAmt mtt _ _ _ htl))
                (ih st3 st' h)
          · rw [if_neg hauto] at h
            exact tracks_trans hmid2 (ih _ st' h)

/-- C2: over one whole scan, a ticker is in the outgoing traded set iff it
was already traded or an order submission for it was sent and returned
success (failed submissions leave the traded set untouched and so remain
retryable), and the trades-executed counter equals exactly the number of
successful submissions. -/
theorem c2_traded_iff_success (env : ScanEnv) (auto : Bool) (maxAmt : ℚ)
    (traded0 : Finset String) (mtt : Option ℤ) (st' : ScanState)
    (h : scan_once env auto maxAmt traded0 mtt = some st') :
    st'.traded = traded0 ∪ (succTickers env st'.log).toFinset ∧
    st'.trades_executed = (st'.log.filter env.orderOk).length := by
  obtain ⟨d, h1, h2, h3⟩ := cityLoop_tracks env auto maxAmt mtt CITIES _ st' h
  simp only [initState, List.nil_append, Nat.zero_add] at h1 h2 h3
  subst h1
  exact ⟨h2, h3⟩

lemma budgetHit_none (tr : Finset String) : budgetHit none tr = false := rfl

lemma budgetHit_zero (tr : Finset String) : budgetHit (some 0) tr = false := by
  simp [budgetHit]

lemma scan_once_budget_hit (env : ScanEnv) (auto : Bool) (maxAmt : ℚ)
    (traded0 : Finset String) (mtt : Option ℤ)
    (hb : budgetHit mtt traded0 = true) :
    scan_once env auto maxAmt traded0 mtt =
      some { initState traded0 with max_trades_hit := true } := by
  rw [scan_once, CITIES, cityLoop,
    if_pos (show budgetHit mtt (initState traded0).traded = true from hb)]

lemma tradeLoop_card_le (env : ScanEnv) (maxAmt : ℚ) (n : ℤ) (hn : n ≠ 0) :
    ∀ (opps : List Opportunity) (st st' : ScanState),
      tradeLoop env maxAmt (some n) opps st = some st' →
      (st.traded.card : ℤ) ≤ n → (st'.traded.card : ℤ) ≤ n := by
  intro opps
  induction opps with
  | nil =>
    intro st st' h hc
    rw [tradeLoop] at h
    obtain rfl := Option.some.inj h
    exact hc
  | cons opp rest ih =>
    intro st st' h hc
    rw [tradeLoop] at h
    split_ifs at h with hb hm hp hok
    · obtain rfl := Option.some.inj h
      exact hc
    · exact ih st st' h hc
    · have hlt : ¬ (n ≤ (st.traded.card : ℤ)) := by
        intro hle
        exact hb (by simp [budgetHit, hn, hle])
      have hins := Finset.card_insert_le opp.ticker st.traded
      refine ih _ st' h ?_
      push_cast
      omega
    · exact ih _ st' h hc

lemma cityLoop_card_le (env : ScanEnv) (auto : Bool) (maxAmt : ℚ) (n : ℤ) (hn : n ≠ 0) :
    ∀ (cities : List (String × CityData)) (st st' : ScanState),
      cityLoop env auto maxAmt (some n) cities st = some st' →
      (st.traded.card : ℤ) ≤ n → (st'.traded.card : ℤ) ≤ n := by
  intro cities
  induction cities with
  | nil =>
    intro st st' h hc
    rw [cityLoop] at h
    obtain rfl := Option.some.inj h
    exact hc
  | cons c rest ih =>
    intro st st' h hc
    rw [cityLoop] at h
    by_cases hb : budgetHit (some n) st.traded = true
    · rw [if_pos hb] at h
      obtain rfl := Option.some.inj h
      exact hc
    · rw [if_neg hb] at h
      rcases hw : env.weather c.2.nws_station with _ | w
      · rw [hw] at h
        exact ih st st' h hc
      · simp only [hw] at h
        by_cases hmk : env.markets c.2.kalshi_series = []
        · rw [if_pos hmk] at h
          exact ih _ st' h hc
        · rw [if_neg hmk] at h
          by_cases hauto : (auto &&
              !(find_arbitrage_opportunities c.1 (some w)
                  (env.markets c.2.kalshi_series)).isEmpty) = true
          · rw [if_pos hauto] at h
            rcases htl : tradeLoop env maxAmt (some n)
                (find_arbitrage_opportunities c.1 (some w) (env.markets c.2.kalshi_series))
                (noteOpps (noteCity st c.1 w)
                  (find_arbitrage_opportunities c.1 (some w)
                    (env.markets c.2.kalshi_series)).length)
              with _ | st3
            · rw [htl] at h
              exact Option.noConfusion h
            · rw [htl] at h
              exact ih st3 st' h (tradeLoop_card_le env maxAmt n hn _ _ st3 htl hc)
          · rw [if_neg hauto] at h
            exact ih _ st' h hc

/-- C3: with a positive trade cap `n`, once the traded set has reached the
cap the whole scan short-circuits at the very first budget check — the
result is the untouched incoming state with `max_trades_hit` set, so no
order is ever submitted, regardless of duplicates or data (budget is
checked before anything else); and starting at or below the cap the traded
set can never grow beyond it. -/
theorem c3_budget_cap (env : ScanEnv) (auto : Bool) (maxAmt : ℚ)
    (traded0 : Finset String) (n : ℕ) (hpos : 0 < n) :
    ((n : ℤ) ≤ (traded0.card : ℤ) →
      scan_once env auto maxAmt traded0 (some (n : ℤ)) =
        some { initState traded0 with max_trades_hit := true }) ∧
    (∀ st', scan_once env auto maxAmt traded0 (some (n : ℤ)) = some st' →
      traded0.card ≤ n → st'.traded.card ≤ n) := by
  constructor
  · intro hge
    refine scan_once_budget_hit env auto maxAmt traded0 _ ?_
    have hnz : (n : ℤ) ≠ 0 := by omega
    simp [budgetHit, hnz, hge]
  · intro st' h hle
    have := cityLoop_card_le env auto maxAmt (n : ℤ) (by omega) CITIES
      (initState traded0) st' h (by exact_mod_cast hle)
    exact_mod_cast this

/-- Witness for C3: cap 1 already reached by a one-element traded set. -/
theorem c3_budget_cap_witness :
    scan_once envB true 5 {"X"} (some ((1 : ℕ) : ℤ)) =
      some { initState {"X"} with max_trades_hit := true } :=
  (c3_budget_cap envB true 5 {"X"} 1 (by decide)).1 (by decide)

/-- C9: an opportunity whose ticker is already in the traded set is always
skipped by the duplicate check — running the trade loop on any number of
copies of it leaves the state exactly unchanged and submits nothing, and a
single duplicate head is simply dropped from the loop. -/
theorem c9_duplicate_skip (env : ScanEnv) (maxAmt : ℚ) (mtt : Option ℤ)
    (opp : Opportunity) (st : ScanState) (k : ℕ)
    (hdup : opp.ticker ∈ st.traded) (hb : budgetHit mtt st.traded = false) :
    tradeLoop env maxAmt mtt (List.replicate k opp) st = some st ∧
    ∀ rest, tradeLoop env maxAmt mtt (opp :: rest) st =
      tradeLoop env maxAmt mtt rest st := by
  have hstep : ∀ rest, tradeLoop env maxAmt mtt (opp :: rest) st =
      tradeLoop env maxAmt mtt rest st := by
    intro rest
    rw [tradeLoop, if_neg (by simp [hb]), if_pos hdup]
  refine ⟨?_, hstep⟩
  induction k with
  | zero =>
    rw [List.replicate_zero, tradeLoop]
  | succ k ihk =>
    rw [List.replicate_succ, hstep, ihk]

/-- Witness for C9: three copies of the Boston opportunity against a
traded set already containing its ticker. -/
theorem c9_duplicate_skip_witness :
    tradeLoop envB 5 none (List.replicate 3 oppB)
        (initState {"KXHIGHTBOS-26FEB12-B58.5"}) =
      some (initState {"KXHIGHTBOS-26FEB12-B58.5"}) :=
  (c9_duplicate_skip envB 5 none oppB (initState {"KXHIGHTBOS-26FEB12-B58.5"}) 3
    (by decide) rfl).1

lemma tradeLoop_zero_eq_none (env : ScanEnv) (maxAmt : ℚ) :
    ∀ (opps : List Opportunity) (st : ScanState),
      tradeLoop env maxAmt (some 0) opps st = tradeLoop env maxAmt none opps st := by
  intro opps
  induction opps with
  | nil => intro st; rw [tradeLoop, tradeLoop]
  | cons opp rest ih =>
    intro st
    simp only [tradeLoop, budgetHit_zero, budgetHit_none, Bool.false_eq_true,
      if_false, ih]

lemma cityLoop_zero_eq_none (env : ScanEnv) (auto : Bool) (maxAmt : ℚ) :
    ∀ (cities : List (String × CityData)) (st : ScanState),
      cityLoop env auto maxAmt (some 0) cities st =
        cityLoop env auto maxAmt none cities st := by
  intro cities
  induction cities with
  | nil => intro st; rw [cityLoop, cityLoop]
  | cons c rest ih =>
    intro st
    simp only [cityLoop, budgetHit_zero, budgetHit_none, Bool.false_eq_true,
      if_false, ih, tradeLoop_zero_eq_none]

lemma scan_once_zero_eq_none (env : ScanEnv) (auto : Bool) (maxAmt : ℚ)
    (traded0 : Finset String) :
    scan_once env auto maxAmt traded0 (some 0) =
      scan_once env auto maxAmt traded0 none := by
  rw [scan_once, scan_once, cityLoop_zero_eq_none]

lemma evalMarket_mkB : evalMarket SAFETY_MARGIN "Boston" 60 mkB = some oppB := by
  have hx : extract_temp_from_title mkB.title = some (58, 59) := by decide
  have hyes : marketYesPrice mkB = 10 := rfl
  simp only [evalMarket, hx, hyes]
  rw [if_pos (show ((59 : ℕ) : ℚ) + SAFETY_MARGIN ≤ 60 by norm_num [SAFETY_MARGIN])]
  rw [if_pos (show (100 : ℤ) - 10 < 95 by norm_num)]
  rw [if_pos (show (0 : ℤ) < 100 - 10 by norm_num)]
  have hroi : pyRound (((100 - (100 - 10) : ℤ) : ℚ) / ((100 - 10 : ℤ) : ℚ) * 100) = 11 := by
    have he : (((100 - (100 - 10) : ℤ) : ℚ) / ((100 - 10 : ℤ) : ℚ) * 100) = 100 / 9 := by
      norm_num
    have hf : ⌊(100 : ℚ) / 9⌋ = 11 := by norm_num
    rw [he]
    simp only [pyRound, hf]
    norm_num
  rw [hroi]
  rfl

lemma find_arb_envB :
    find_arbitrage_opportunities "Boston" (some wB) [mkB] = [oppB] := by
  have hw : wB.max_temp_today = (60 : ℚ) := rfl
  simp only [find_arbitrage_opportunities, hw]
  rw [if_neg (by simp)]
  simp [List.filterMap_cons, evalMarket_mkB]
lemma pyInt_5_div : pyInt ((5 : ℚ) / (90 / 100)) = 5 := by
  rw [pyInt, if_pos (by norm_num)]
  norm_num

lemma pyInt_10_div : pyInt ((10 : ℚ) / (90 / 100)) = 11 := by
  rw [pyInt, if_pos (by norm_num)]
  norm_num

lemma pyInt_zero : pyInt 0 = 0 := by
  rw [pyInt, if_pos le_rfl]
  exact Int.floor_zero

lemma scan_envB_run5 : scan_once envB true 5 {"X"} none = some stRun5 := by
  simp [scan_once, CITIES, cityLoop, tradeLoop, initState, budgetHit_none, envB,
    find_arb_envB, noteCity, noteOpps, submitOrder, stRun5, pyInt_5_div,
    show wB.max_temp_today = (60 : ℚ) from rfl,
    show oppB.ticker = "KXHIGHTBOS-26FEB12-B58.5" from rfl,
    show oppB.no_price = (90 : ℤ) from rfl]

lemma scan_envBFail_run : scan_once envBFail true 10 ∅ none = some stFail := by
  simp [scan_once, CITIES, cityLoop, tradeLoop, initState, budgetHit_none, envBFail,
    find_arb_envB, noteCity, noteOpps, submitOrder, stFail, pyInt_10_div,
    show wB.max_temp_today = (60 : ℚ) from rfl,
    show oppB.ticker = "KXHIGHTBOS-26FEB12-B58.5" from rfl,
    show oppB.no_price = (90 : ℤ) from rfl]

lemma tradeLoop_amt0_run :
    tradeLoop envB 0 none [oppB] (initState ∅) = some stAmt0 := by
  simp [tradeLoop, initState, budgetHit_none, envB, submitOrder, stAmt0, pyInt_zero,
    show oppB.ticker = "KXHIGHTBOS-26FEB12-B58.5" from rfl,
    show oppB.no_price = (90 : ℤ) from rfl]

/-- C4 counterexample: with `max_trade_amount = 0` ($0 per trade) the
computed quantity for the 90-cent Boston opportunity is
`int(0 / 0.9) = 0 < 1`, yet the trade gate is not a no-op: the
zero-quantity order is submitted to the order client and, on success, the
traded set and trade counter are mutated — the code has no
`quantity < 1` guard. -/
theorem c4_counterexample :
    (tradeLoop envB 0 none [oppB] (initState ∅)).map ScanState.log =
      some [⟨"KXHIGHTBOS-26FEB12-B58.5", "no", 90, 0⟩] ∧
    (tradeLoop envB 0 none [oppB] (initState ∅)).map ScanState.traded =
      some {"KXHIGHTBOS-26FEB12-B58.5"} ∧
    (tradeLoop envB 0 none [oppB] (initState ∅)).map ScanState.trades_executed =
      some 1 := by
  rw [tradeLoop_amt0_run]
  exact ⟨rfl, rfl, rfl⟩

/-- C4 amended: past the budget and duplicate checks (and for a non-zero
price — a zero price raises a division error), the gate computes
`quantity = int(max_per_trade_usd / (no_price/100))` (equal to
`floor` for the non-negative values that occur) and submits the order
with that quantity unconditionally: there is no `quantity < 1` no-op
guard. -/
theorem c4_quantity_no_guard (env : ScanEnv) (maxAmt : ℚ) (mtt : Option ℤ)
    (opp : Opportunity) (st : ScanState)
    (hb : budgetHit mtt st.traded = false) (hdup : opp.ticker ∉ st.traded)
    (hnz : (opp.no_price : ℚ) / 100 ≠ 0) :
    (∀ q : ℚ, 0 ≤ q → pyInt q = ⌊q⌋) ∧
    (tradeLoop env maxAmt mtt [opp] st).map ScanState.log =
      some (st.log ++ [submitOrder opp maxAmt]) ∧
    submitOrder opp maxAmt =
      ⟨opp.ticker, "no", opp.no_price, pyInt (maxAmt / ((opp.no_price : ℚ) / 100))⟩ := by
  refine ⟨fun q hq => by rw [pyInt, if_pos hq], ?_, rfl⟩
  rw [tradeLoop, if_neg (by simp [hb]), if_neg hdup, if_neg hnz]
  rcases hok : env.orderOk (submitOrder opp maxAmt) with _ | _
  · rw [if_neg (by simp), tradeLoop]
    rfl
  · rw [if_pos rfl, tradeLoop]
    rfl

/-- Witness for C4 amended: the $0-per-trade submission (quantity 0) and
a concrete truncation value. -/
theorem c4_quantity_no_guard_witness :
    pyInt ((9 : ℚ) / 2) = ⌊(9 : ℚ) / 2⌋ ∧
    (tradeLoop envB 0 none [oppB] (initState ∅)).map ScanState.log =
      some ((initState ∅).log ++ [submitOrder oppB 0]) :=
  ⟨(c4_quantity_no_guard envB 0 none oppB (initState ∅) rfl (by decide)
      (show ((90 : ℤ) : ℚ) / 100 ≠ 0 by norm_num)).1 ((9 : ℚ) / 2) (by norm_num),
   (c4_quantity_no_guard envB 0 none oppB (initState ∅) rfl (by decide)
      (show ((90 : ℤ) : ℚ) / 100 ≠ 0 by norm_num)).2.1⟩

/-- C10: a `max_total_trades` of `None` or `0` disables the trade cap
entirely (Python truthiness): the budget predicate is never hit, a scan
with limit `0` behaves exactly like a scan with no limit at all, and in
particular with auto-execute on and limit `0` a trade is still executed
(`0` means unlimited, not trade-nothing). -/
theorem c10_zero_limit_unlimited :
    (∀ traded : Finset String,
      budgetHit (some 0) traded = false ∧ budgetHit none traded = false) ∧
    (∀ (env : ScanEnv) (auto : Bool) (maxAmt : ℚ) (traded0 : Finset String),
      scan_once env auto maxAmt traded0 (some 0) =
        scan_once env auto maxAmt traded0 none) ∧
    (scan_once envB true 5 {"X"} (some 0)).map
        (fun st => (st.trades_executed, st.max_trades_hit)) = some (1, false) := by
  refine ⟨fun tr => ⟨budgetHit_zero tr, budgetHit_none tr⟩,
    fun env auto maxAmt traded0 => scan_once_zero_eq_none env auto maxAmt traded0, ?_⟩
  rw [scan_once_zero_eq_none, scan_envB_run5]
  rfl

/-- Witness for C2: the failed-submission scan — the order is logged but
the traded set stays empty and the counter stays zero. -/
theorem c2_traded_iff_success_witness :
    stFail.traded = (∅ : Finset String) ∪ (succTickers envBFail stFail.log).toFinset ∧
    stFail.trades_executed = (stFail.log.filter envBFail.orderOk).length :=
  c2_traded_iff_success envBFail true 10 ∅ none stFail scan_envBFail_run
